import Mathlib

/-!
# Verification of the flight-school weather-violation auditor

Shallow embedding of `violations.py` and `app.py` from the
`eCornell_Cert_Project` repository, together with proofs of the claims
about them.

Numeric values (Python floats) are embedded as rationals `ℚ`, which makes
every comparison in the code exact and decidable; none of the claims
depends on floating-point rounding.  Python dictionaries that carry a
fixed set of optional keys become structures with `Option` fields; a
Python function that can raise (a `KeyError`, `NameError`, `TypeError` or
`ValueError`) is embedded with return type `Option _` or `Except String _`,
where `none`/`.error` means the call raises.
-/

namespace Auditor

/-- A visibility measurement: either the string `'unavailable'` or a
dictionary with optional fields `minimum`, `maximum`, `prevailing` and a
required `units` field (`violations.py`, `bad_visibility` docstring). -/
inductive Visibility where
  | unavailable : Visibility
  | meas (minimum maximum prevailing : Option ℚ) (units : String) : Visibility
  deriving DecidableEq, Repr

/-- Embedding of `bad_visibility(visibility, minimum)` from
`violations.py` (lines 76–93).  The Python code leaves the local variable
`viz` unbound when `units` is neither `"FT"` nor `"SM"`, or when neither
`"minimum"` nor `"prevailing"` is a key of the dictionary; the final
comparison then raises `NameError`, which the embedding renders as `none`. -/
def bad_visibility (visibility : Visibility) (minimum : ℚ) : Option Bool :=
  match visibility with
  | .unavailable => some true
  | .meas min? _max? prev? units =>
    let viz? : Option ℚ :=
      match min? with
      | some m =>
        if units = "FT" then some (m / 5280)
        else if units = "SM" then some m
        else none
      | none =>
        match prev? with
        | some p =>
          if units = "FT" then some (p / 5280)
          else if units = "SM" then some p
          else none
        | none => none
    match viz? with
    | none => none
    | some viz => some (decide (minimum ≥ viz))

/-- A wind measurement: the string `'calm'`, the string `'unavailable'`, or
a dictionary with optional `speed`, `crosswind`, `gusts` and a required
`units` field (`violations.py`, `bad_winds` docstring; `speed` and `units`
are required by the precondition but the dictionary shape itself allows
`speed` to be absent, hence an `Option`). -/
inductive Winds where
  | calm : Winds
  | unavailable : Winds
  | meas (speed crosswind gusts : Option ℚ) (units : String) : Winds
  deriving DecidableEq, Repr

/-- Embedding of `bad_winds(winds, maxwind, maxcross)` from `violations.py`
(lines 139–158).  In each unit branch the Python code first evaluates
`winds["crosswind"]` with a bare subscript, so a missing `crosswind` key
raises `KeyError` (embedded as `none`).  `windz` is bound from `gusts` if
present, else from `speed`; when neither is present, or when `units` is
neither `"MPS"` nor `"KT"`, the final comparison raises `NameError`
(also `none`). -/
def bad_winds (winds : Winds) (maxwind maxcross : ℚ) : Option Bool :=
  match winds with
  | .calm => some false
  | .unavailable => some true
  | .meas speed? crosswind? gusts? units =>
    if units = "MPS" then
      match crosswind? with
      | none => none
      | some c =>
        let crozz := c * (1.94384 : ℚ)
        let windz? : Option ℚ :=
          match gusts? with
          | some g => some (g * (1.94384 : ℚ))
          | none =>
            match speed? with
            | some s => some (s * (1.94384 : ℚ))
            | none => none
        match windz? with
        | none => none
        | some windz => some (decide (windz > maxwind ∨ crozz > maxcross))
    else if units = "KT" then
      match crosswind? with
      | none => none
      | some c =>
        let crozz := c
        let windz? : Option ℚ :=
          match gusts? with
          | some g => some g
          | none =>
            match speed? with
            | some s => some s
            | none => none
        match windz? with
        | none => none
        | some windz => some (decide (windz > maxwind ∨ crozz > maxcross))
    else none

/-- A single cloud-layer record from a ceiling measurement (`violations.py`,
`bad_ceiling` docstring): required keys `type`, `height` and `units`
(an optional `cover` key is never read by the code and is omitted). -/
structure CloudLayer where
  type : String
  height : ℚ
  units : String
  deriving DecidableEq, Repr

/-- A ceiling measurement: the string `'clear'`, the string `'unavailable'`,
or a list of cloud layers. -/
inductive Ceiling where
  | clear : Ceiling
  | unavailable : Ceiling
  | layers (ls : List CloudLayer) : Ceiling
  deriving DecidableEq, Repr

/-- Python's built-in `min` over a list of numbers; the `0` default is never
used because the code only applies `min` to non-empty lists. -/
def listMin : List ℚ → ℚ
  | [] => 0
  | x :: xs => xs.foldl min x

/-- The heights of the layers of a given cover type, in order.  This is the
list that each of the four accumulation loops of `bad_ceiling`
(`violations.py`, lines 216–227) builds by appending `ceiling[x]["height"]`
for every layer whose `"type"` equals the given string. -/
def heightsOfType (ls : List CloudLayer) (ty : String) : List ℚ :=
  (ls.filter (fun l => decide (l.type = ty))).map (fun l => l.height)

/-- The list `comp_ceils` built by `bad_ceiling` (`violations.py`, lines
232–237): the minimum of each of the `broken`, `overcast` and
`indefinite ceiling` height lists, in that order, skipping empty lists. -/
def comp_ceils (ls : List CloudLayer) : List ℚ :=
  (if heightsOfType ls "broken" = [] then [] else [listMin (heightsOfType ls "broken")])
    ++ (if heightsOfType ls "overcast" = [] then [] else [listMin (heightsOfType ls "overcast")])
    ++ (if heightsOfType ls "indefinite ceiling" = [] then []
        else [listMin (heightsOfType ls "indefinite ceiling")])

/-- Embedding of `bad_ceiling(ceiling, minimum)` from `violations.py`
(lines 203–243).  The code also accumulates the `scattered` heights, but
uses them only in the test `scattered != None`, which always holds (the
variable holds a list or a number, never `None`), so when `comp_ceils` is
empty the function returns `False`; otherwise it returns
`minimum > min(comp_ceils)`. -/
def bad_ceiling (ceiling : Ceiling) (minimum : ℚ) : Bool :=
  match ceiling with
  | .clear => false
  | .unavailable => true
  | .layers ls =>
    if comp_ceils ls = [] then false
    else decide (minimum > listMin (comp_ceils ls))

/-- Specification-side helper: the heights of the layers whose type legally
constitutes a ceiling (`broken`, `overcast` or `indefinite ceiling`), in
the original layer order (spec §4.1, ceiling check). -/
def governingHeights (ls : List CloudLayer) : List ℚ :=
  (ls.filter (fun l =>
      decide (l.type = "broken" ∨ l.type = "overcast" ∨ l.type = "indefinite ceiling"))).map
    (fun l => l.height)

/-- Specification-side helper: conversion of a raw visibility value to
statute miles (spec §4.1: if unit is `FT`, divide by 5280; if `SM`,
use as-is). -/
def toSM (units : String) (x : ℚ) : ℚ :=
  if units = "FT" then x / 5280 else x

/-- Specification-side helper: conversion of a raw wind value to knots
(spec §4.1: unit `MPS` converts via factor 1.94384; `KT` passes
through). -/
def toKT (units : String) (x : ℚ) : ℚ :=
  if units = "MPS" then x * (1.94384 : ℚ) else x

/-- An aware timestamp, as produced by parsing an ISO-8601 string such as
`2017-04-21T08:00:00-04:00`.  `clock` is the local date-and-time shown
before the offset suffix, encoded as a single integer (e.g. minutes on the
local calendar/clock); `offset` is the UTC offset in minutes.  Two
timestamps are equal exactly when their ISO strings are equal, and for
timestamps with the SAME offset the lexicographic order of the ISO strings
(fixed-width, zero-padded fields) coincides with the order of `clock`. -/
structure Timestamp where
  clock : Int
  offset : Int
  deriving DecidableEq, Repr

/-- The UTC instant a timestamp denotes.  Python compares two aware
`datetime` objects by their UTC instants. -/
def Timestamp.utc (t : Timestamp) : Int :=
  t.clock - t.offset

/-- Python's `max` over a non-empty list of same-offset ISO timestamp
strings, which compares lexicographically and hence by `clock` (`max`
keeps the earlier of equal elements, and equal ISO strings denote equal
timestamps). -/
def maxKey : List Timestamp → Option Timestamp
  | [] => none
  | k :: ks => some (ks.foldl (fun best k2 => if best.clock < k2.clock then k2 else best) k)

/-- Embedding of `get_weather_report(takeoff, weather)` from
`violations.py` (lines 327–346).  The weather dictionary becomes an
association list keyed by timestamps; `takeoff.isoformat()` and the
exact-key probe `weather[iso_takeoff]` become a search for a key equal to
`takeoff` (ISO rendering is injective), with the `except:` fallback taken
when the probe raises `KeyError`.  In the fallback, `utils.str_to_time`
(spec §6: `parse_timestamp`, the inverse of `format_timestamp`) is the
identity on the already-parsed keys; `takeoff.tzinfo == key_dto.tzinfo`
is offset equality, and `takeoff > key_dto` compares UTC instants.
`max(before_keys)` on the empty list raises an uncaught `ValueError`
(embedded as `.error`), so the `return None` on line 346 is unreachable:
`len(best_key)` is the length of a non-empty ISO string.  The final
`weather[best_key]` lookup cannot fail because `best_key` is drawn from
the dictionary's own keys; the `.error "KeyError"` arm is unreachable. -/
def get_weather_report {α : Type} (takeoff : Timestamp) (weather : List (Timestamp × α)) :
    Except String (Option α) :=
  match weather.find? (fun kv => decide (kv.1 = takeoff)) with
  | some kv => .ok (some kv.2)
  | none =>
    match maxKey ((weather.filter
        (fun kv => decide (takeoff.offset = kv.1.offset)
          && decide (takeoff.utc > kv.1.utc))).map Prod.fst) with
    | none => .error "ValueError"
    | some best =>
      match weather.find? (fun kv => decide (kv.1 = best)) with
      | some kv => .ok (some kv.2)
      | none => .error "KeyError"

/-- A weather observation, as consumed by `get_weather_violation`: a
dictionary with (at least) the keys `visibility`, `wind` and `sky`
(`violations.py`, `get_weather_violation` docstring; other keys are never
read and are omitted). -/
structure Weather where
  visibility : Visibility
  wind : Winds
  sky : Ceiling
  deriving DecidableEq, Repr

/-- Embedding of `get_weather_violation(weather, minimums)` from
`violations.py` (lines 408–438).  The list indexings `minimums[1]`,
`minimums[2]`, `minimums[3]`, `minimums[0]` (embedded with `List.get?`) raise `IndexError` on a short
list; a raise inside `bad_visibility` or `bad_winds` propagates
(`bad_ceiling` is total).  `b_v`/`b_w`/`b_c` and the `baddies` list are
mirrored directly. -/
def get_weather_violation (weather : Option Weather) (minimums : List ℚ) : Option String :=
  match weather with
  | none => some "Unknown"
  | some w => do
    let m1 ← minimums.get? 1
    let bv ← bad_visibility w.visibility m1
    let m2 ← minimums.get? 2
    let m3 ← minimums.get? 3
    let bw ← bad_winds w.wind m2 m3
    let m0 ← minimums.get? 0
    let bc := bad_ceiling w.sky m0
    let b_v : Option String := if bv then some "Visibility" else none
    let b_w : Option String := if bw then some "Winds" else none
    let b_c : Option String := if bc then some "Ceiling" else none
    let baddies := b_v.toList ++ b_w.toList ++ b_c.toList
    if baddies.length = 0 then pure ""
    else if baddies.length = 1 then pure (baddies.headD "")
    else pure "Weather"

/-- Modelled from the spec: the modules `utils` and `pilots` imported by
`violations.py` and `app.py` are absent from the repository sources.  Spec
§1 and §6 treat them as external collaborators specified only at their
interface: `minimums_for` (here `get_minimums`, fed a certification, an
area string, the instructed/VFR/daytime flags and the minimums table) is
opaque to the core, as are the id lookup `get_for_id`, the certification
lookup `get_certification`, the day/night test `daytime` (over an abstract
daycycle table of type `δ`) and the timestamp parser `str_to_time`
(`Option`-valued: an unparsable timestamp propagates as a failure,
spec §7).  The audit driver is verified for EVERY behaviour of these
collaborators. -/
structure AuditEnv (δ : Type) where
  str_to_time : String → Option Timestamp
  get_for_id : String → List (List String) → List String
  get_certification : Timestamp → List String → Int
  daytime : Timestamp → δ → Bool
  get_minimums : Int → String → Bool → Bool → Bool → List (List String) → List ℚ

/-- The body of the per-lesson loop of `list_weather_violations`
(`violations.py`, lines 525–538), producing the violation label for one
lesson row.  List indexing models `IndexError`; the `vfr` assignment is
skipped by the code when `lessons[x][5]` is neither `'VFR'` nor `'IFR'`,
in which case the first iteration raises `NameError` at the
`get_minimums` call (later iterations would leak the previous value; the
embedding renders the invalid tag as a failure, which agrees with the
code on valid tables).  A raise inside `get_weather_report` propagates. -/
def process_lesson {δ : Type} (env : AuditEnv δ) (daycycle : δ)
    (weather : List (Timestamp × Weather)) (minimums students : List (List String))
    (line : List String) : Option String := do
  let t3 ← line.get? 3
  let takeoff ← env.str_to_time t3
  let s0 ← line.get? 0
  let cert := env.get_certification takeoff (env.get_for_id s0 students)
  let i2 ← line.get? 2
  let instructed := decide (i2 ≠ "")
  let f5 ← line.get? 5
  let vfr ← if f5 = "VFR" then some true else if f5 = "IFR" then some false else none
  let a6 ← line.get? 6
  let pilot_minimums :=
    env.get_minimums cert a6 instructed vfr (env.daytime takeoff daycycle) minimums
  let weather_conditions ←
    match get_weather_report takeoff weather with
    | .error _ => none
    | .ok w? => some w?
  get_weather_violation weather_conditions pilot_minimums

/-- Embedding of `list_weather_violations(directory)` from `violations.py`
(lines 497–543), with the file loads replaced by the already-loaded
tables (the daycycle table, the parsed weather log, and the minimums,
students and lessons CSV rows).  The code drops the header row of
`lessons`, then for each remaining row computes the violation label and,
when it is not the empty string, appends the row with the label appended
(`line.append(viola); results.append(line)`). -/
def list_weather_violations {δ : Type} (env : AuditEnv δ) (daycycle : δ)
    (weather : List (Timestamp × Weather)) (minimums students lessons : List (List String)) :
    Option (List (List String)) :=
  (lessons.drop 1).foldlM
    (fun results line => do
      let viola ← process_lesson env daycycle weather minimums students line
      if viola ≠ "" then pure (results ++ [line ++ [viola]]) else pure results)
    []

/-- The observable effects of one call to `discover_violations`: the file
name written, the rows written to it, and the summary line printed. -/
structure DiscoverEffects where
  filename : String
  data : List (List String)
  printed : String
  deriving DecidableEq, Repr

/-- Embedding of `discover_violations(directory, output)` from `app.py`
(lines 60–78), parameterised by `vios`, the list returned by
`list_weather_violations(directory)`.  `utils.write_csv(output_data,
filename)` is modelled from the spec (§6: the caller writes the result as
a CSV with the fixed header) as the recorded effect of writing `data` to
`filename`; Python's `repr` of an `int` is its decimal string. -/
def discover_violations (vios : List (List String)) (output : Option String) : DiscoverEffects :=
  let header := [["STUDENT", "AIRPLANE", "INSTRUCTOR", "TAKEOFF", "LANDING", "FILED", "AREA",
    "REASON"]]
  let output_data := header ++ vios
  let out_line :=
    if vios.length = 1 then toString vios.length ++ " violation found."
    else if vios.length > 1 then toString vios.length ++ " violations found."
    else "No violations found."
  let filename :=
    match output with
    | none => "output.csv"
    | some o => o
  ⟨filename, output_data, out_line⟩

/-- The observable outcome of one call to `execute`. -/
inductive ExecOutcome where
  | printedUsage : ExecOutcome
  | ranTests : ExecOutcome
  | ranAudit (directory : String) (output : Option String) : ExecOutcome
  deriving DecidableEq, Repr

/-- Embedding of `execute(args)` from `app.py` (lines 102–117).  In the
one-element branch (line 113) the code calls `discover_violations(args)`,
passing the whole list as the only argument; `discover_violations`
requires two positional parameters, so the call raises `TypeError` before
the audit body runs, the bare `except` catches it, and the usage line is
printed — the embedding records `.printedUsage` for that branch.  In the
two-element branch `discover_violations(args[0], args[1])` is reached
with both arguments, recorded as `.ranAudit` (a failure inside that audit
would also fall back to the usage line, which no claim is about). -/
def execute (args : List String) : ExecOutcome :=
  if args.length = 0 ∨ args.length > 2 then .printedUsage
  else if args.length = 2 ∧ args.get? 1 = some "--test" then .printedUsage
  else if args.length = 2 ∧ args.get? 0 = some "--test" then .printedUsage
  else if args.length = 1 ∧ args.get? 0 = some "--test" then .ranTests
  else if args.length = 1 then .printedUsage
  else .ranAudit (args.headD "") (args.get? 1)

/-- C3: for every valid visibility measurement and numeric limit,
`bad_visibility` returns `True` when the measurement is `'unavailable'`;
otherwise it selects the `minimum` field if present, else the `prevailing`
field, converts it to statute miles (dividing by 5280 when units are
`'FT'`, unchanged when `'SM'`), and returns `True` iff the limit is `≥`
the converted value — so a limit exactly equal to the converted value
counts as a violation. -/
theorem bad_visibility_spec (min? max? prev? : Option ℚ) (units : String) (minimum p : ℚ)
    (hu : units = "FT" ∨ units = "SM") (hp : prev? = some p) :
    bad_visibility .unavailable minimum = some true ∧
    bad_visibility (.meas min? max? prev? units) minimum
      = some (decide (minimum ≥ toSM units (min?.getD p))) := by
  refine ⟨rfl, ?_⟩
  subst hp
  rcases hu with hu | hu <;> subst hu <;> cases min? <;>
    simp [bad_visibility, toSM]

/-- Witness for C3 at the docstring's example: limit 1, measurement with
`minimum` 1400 ft and `prevailing` 21120 ft. -/
theorem bad_visibility_spec_witness :
    bad_visibility .unavailable 1 = some true ∧
    bad_visibility (.meas (some 1400) (some 21120) (some 21120) "FT") 1
      = some (decide ((1 : ℚ) ≥ toSM "FT" ((some (1400 : ℚ)).getD 21120))) :=
  bad_visibility_spec (some 1400) (some 21120) (some 21120) "FT" 1 21120 (Or.inl rfl) rfl

/-- C4: for every valid wind measurement and limits, `bad_winds` returns
`False` for `'calm'`, `True` for `'unavailable'`; otherwise, taking the
wind value as gusts if present else speed, and converting both it and the
crosswind from MPS to knots by the factor 1.94384 when units are `'MPS'`
(pass-through for `'KT'`), it returns `True` iff the wind value is
strictly above `maxwind` or the crosswind value strictly above `maxcross`
— equality with either limit is compliant. -/
theorem bad_winds_spec (speed? gusts? : Option ℚ) (units : String) (maxwind maxcross c s : ℚ)
    (hu : units = "MPS" ∨ units = "KT") (hs : speed? = some s) :
    bad_winds .calm maxwind maxcross = some false ∧
    bad_winds .unavailable maxwind maxcross = some true ∧
    bad_winds (.meas speed? (some c) gusts? units) maxwind maxcross
      = some (decide (toKT units (gusts?.getD s) > maxwind ∨ toKT units c > maxcross)) := by
  refine ⟨rfl, rfl, ?_⟩
  subst hs
  rcases hu with hu | hu <;> subst hu <;> cases gusts? <;>
    simp [bad_winds, toKT]

/-- Witness for C4 at the docstring's example measurement
`speed 12, crosswind 10, gusts 18, units KT` with limits `(15, 5)`. -/
theorem bad_winds_spec_witness :
    bad_winds .calm 15 5 = some false ∧
    bad_winds .unavailable 15 5 = some true ∧
    bad_winds (.meas (some 12) (some 10) (some 18) "KT") 15 5
      = some (decide (toKT "KT" ((some (18 : ℚ)).getD 12) > 15 ∨ toKT "KT" 10 > 5)) :=
  bad_winds_spec (some 12) (some 18) "KT" 15 5 10 12 (Or.inr rfl) rfl

/-- C9: for every dictionary wind measurement that lacks the `crosswind`
key (which the measurement shape permits, since only `speed` and `units`
are required), `bad_winds` does not return a boolean: reading the
crosswind raises `KeyError`, so totality of the wind check requires
`crosswind` to be present as an unstated precondition. -/
theorem bad_winds_missing_crosswind (speed? gusts? : Option ℚ) (units : String)
    (maxwind maxcross : ℚ) (hu : units = "MPS" ∨ units = "KT") :
    bad_winds (.meas speed? none gusts? units) maxwind maxcross = none := by
  rcases hu with hu | hu <;> subst hu <;> simp [bad_winds]

/-- Witness for C9: an otherwise-complete KT measurement without a
crosswind entry. -/
theorem bad_winds_missing_crosswind_witness :
    bad_winds (.meas (some 12) none (some 18) "KT") 15 5 = none :=
  bad_winds_missing_crosswind (some 12) (some 18) "KT" 15 5 (Or.inr rfl)

/-- C10: for every violation list, `discover_violations` with `output =
None` still writes the CSV report: the header plus the violation rows go
to a file named `output.csv`, so the filesystem effect occurs on every
successful invocation, not only when an output name is supplied. -/
theorem discover_violations_none_writes (vios : List (List String)) :
    (discover_violations vios none).filename = "output.csv" ∧
    (discover_violations vios none).data
      = [["STUDENT", "AIRPLANE", "INSTRUCTOR", "TAKEOFF", "LANDING", "FILED", "AREA", "REASON"]]
        ++ vios :=
  ⟨rfl, rfl⟩

/-- C2 (failing input): `execute` on the single-element list
`["KITH-2017"]` prints the usage line instead of auditing the dataset
directory — the call `discover_violations(args)` on line 113 of `app.py`
passes one argument to a two-parameter function, raising `TypeError`,
which the bare `except` converts into the usage message. -/
theorem execute_single_dataset_prints_usage :
    execute ["KITH-2017"] = ExecOutcome.printedUsage := by
  decide

/-- C1 (failing input): a takeoff at `06:00:00-04:00` (clock 360 minutes,
offset −240) against a log holding only the `07:00:00-04:00` observation
has no exact match and no prior same-offset entry, and `get_weather_report`
raises `ValueError` (`max()` of an empty `before_keys` list on line 341 of
`violations.py`) instead of returning `None` as its docstring and the spec
require. -/
theorem get_weather_report_no_prior_raises :
    get_weather_report (α := Nat) ⟨360, -240⟩ [(⟨420, -240⟩, 0)]
      = Except.error "ValueError" := rfl

/-- C6: `get_weather_violation` returns `'Unknown'` when the observation
is `None`; otherwise, with the three checks evaluated in the fixed order
Visibility, Winds, Ceiling, it returns `''` when zero checks fire, the
single corresponding label when exactly one fires, and `'Weather'` when
two or more fire. -/
theorem get_weather_violation_spec (w : Weather) (m0 m1 m2 m3 : ℚ) (rest : List ℚ)
    (bv bw : Bool) (hv : bad_visibility w.visibility m1 = some bv)
    (hw : bad_winds w.wind m2 m3 = some bw) :
    get_weather_violation none (m0 :: m1 :: m2 :: m3 :: rest) = some "Unknown" ∧
    get_weather_violation (some w) (m0 :: m1 :: m2 :: m3 :: rest)
      = some (match bv, bw, bad_ceiling w.sky m0 with
        | false, false, false => ""
        | true, false, false => "Visibility"
        | false, true, false => "Winds"
        | false, false, true => "Ceiling"
        | _, _, _ => "Weather") := by
  refine ⟨rfl, ?_⟩
  rcases hbc : bad_ceiling w.sky m0 with _ | _ <;> cases bv <;> cases bw <;>
    simp [get_weather_violation, hv, hw, hbc, Option.toList]

/-- Witness for C6: an observation with unavailable visibility, calm wind
and clear sky fires exactly the visibility check, against the minimums
profile `[3000, 10, 20, 8]`. -/
theorem get_weather_violation_spec_witness :
    get_weather_violation none [3000, 10, 20, 8] = some "Unknown" ∧
    get_weather_violation (some ⟨.unavailable, .calm, .clear⟩) [3000, 10, 20, 8]
      = some "Visibility" :=
  get_weather_violation_spec ⟨.unavailable, .calm, .clear⟩ 3000 10 20 8 [] true false rfl rfl

theorem foldl_min_le_init (xs : List ℚ) (x : ℚ) : xs.foldl min x ≤ x := by
  induction xs generalizing x with
  | nil => exact le_refl x
  | cons y ys ih => exact le_trans (ih (min x y)) (min_le_left x y)

theorem foldl_min_le_mem (xs : List ℚ) (x y : ℚ) (hy : y ∈ xs) : xs.foldl min x ≤ y := by
  induction xs generalizing x with
  | nil => cases hy
  | cons z zs ih =>
    rcases List.mem_cons.mp hy with h | h
    · subst h
      exact le_trans (foldl_min_le_init zs (min x y)) (min_le_right x y)
    · exact ih (min x z) h

theorem foldl_min_mem (xs : List ℚ) (x : ℚ) :
    xs.foldl min x = x ∨ xs.foldl min x ∈ xs := by
  induction xs generalizing x with
  | nil => exact Or.inl rfl
  | cons y ys ih =>
    rcases ih (min x y) with h | h
    · rcases min_choice x y with hm | hm
      · exact Or.inl (h.trans hm)
      · exact Or.inr (List.mem_cons.mpr (Or.inl (h.trans hm)))
    · exact Or.inr (List.mem_cons.mpr (Or.inr h))

theorem listMin_mem (xs : List ℚ) (h : xs ≠ []) : listMin xs ∈ xs := by
  cases xs with
  | nil => exact absurd rfl h
  | cons x xs =>
    show xs.foldl min x ∈ x :: xs
    rcases foldl_min_mem xs x with h1 | h1
    · rw [h1]; exact List.mem_cons_self x xs
    · exact List.mem_cons.mpr (Or.inr h1)

theorem listMin_le (xs : List ℚ) (y : ℚ) (hy : y ∈ xs) : listMin xs ≤ y := by
  cases xs with
  | nil => cases hy
  | cons x xs =>
    show xs.foldl min x ≤ y
    rcases List.mem_cons.mp hy with h | h
    · subst h; exact foldl_min_le_init xs y
    · exact foldl_min_le_mem xs x y h

theorem mem_heightsOfType {ls : List CloudLayer} {ty : String} {x : ℚ} :
    x ∈ heightsOfType ls ty ↔ ∃ l, l ∈ ls ∧ l.type = ty ∧ l.height = x := by
  simp [heightsOfType, List.mem_map, List.mem_filter, and_assoc]

theorem mem_governingHeights {ls : List CloudLayer} {x : ℚ} :
    x ∈ governingHeights ls ↔
      ∃ l, l ∈ ls ∧ (l.type = "broken" ∨ l.type = "overcast" ∨ l.type = "indefinite ceiling")
        ∧ l.height = x := by
  simp [governingHeights, List.mem_map, List.mem_filter, and_assoc]

theorem heightsOfType_subset_governing {ls : List CloudLayer} {ty : String} {x : ℚ}
    (hty : ty = "broken" ∨ ty = "overcast" ∨ ty = "indefinite ceiling")
    (hx : x ∈ heightsOfType ls ty) : x ∈ governingHeights ls := by
  rcases mem_heightsOfType.mp hx with ⟨l, hl, hlt, hh⟩
  exact mem_governingHeights.mpr ⟨l, hl, by rw [hlt]; exact hty, hh⟩

theorem governing_cases {ls : List CloudLayer} {x : ℚ} (hx : x ∈ governingHeights ls) :
    x ∈ heightsOfType ls "broken" ∨ x ∈ heightsOfType ls "overcast"
      ∨ x ∈ heightsOfType ls "indefinite ceiling" := by
  rcases mem_governingHeights.mp hx with ⟨l, hl, hty, hh⟩
  rcases hty with h | h | h
  · exact Or.inl (mem_heightsOfType.mpr ⟨l, hl, h, hh⟩)
  · exact Or.inr (Or.inl (mem_heightsOfType.mpr ⟨l, hl, h, hh⟩))
  · exact Or.inr (Or.inr (mem_heightsOfType.mpr ⟨l, hl, h, hh⟩))

theorem comp_ceils_eq_nil_iff {ls : List CloudLayer} :
    comp_ceils ls = [] ↔ heightsOfType ls "broken" = [] ∧ heightsOfType ls "overcast" = []
      ∧ heightsOfType ls "indefinite ceiling" = [] := by
  unfold comp_ceils
  by_cases h1 : heightsOfType ls "broken" = [] <;>
    by_cases h2 : heightsOfType ls "overcast" = [] <;>
      by_cases h3 : heightsOfType ls "indefinite ceiling" = [] <;>
        simp [h1, h2, h3]

theorem governingHeights_eq_nil_iff_comp {ls : List CloudLayer} :
    governingHeights ls = [] ↔ comp_ceils ls = [] := by
  rw [comp_ceils_eq_nil_iff]
  constructor
  · intro h
    refine ⟨?_, ?_, ?_⟩ <;>
      · rw [List.eq_nil_iff_forall_not_mem]
        intro x hx
        have hg := heightsOfType_subset_governing (by simp) hx
        rw [h] at hg
        cases hg
  · rintro ⟨h1, h2, h3⟩
    rw [List.eq_nil_iff_forall_not_mem]
    intro x hx
    rcases governing_cases hx with h | h | h
    · rw [h1] at h; cases h
    · rw [h2] at h; cases h
    · rw [h3] at h; cases h

theorem listMin_heights_mem_comp {ls : List CloudLayer} {ty : String}
    (hty : ty = "broken" ∨ ty = "overcast" ∨ ty = "indefinite ceiling")
    (hne : heightsOfType ls ty ≠ []) : listMin (heightsOfType ls ty) ∈ comp_ceils ls := by
  unfold comp_ceils
  rcases hty with h | h | h <;> subst h <;>
    by_cases h1 : heightsOfType ls "broken" = [] <;>
      by_cases h2 : heightsOfType ls "overcast" = [] <;>
        by_cases h3 : heightsOfType ls "indefinite ceiling" = [] <;>
          simp_all

theorem mem_comp_ceils {ls : List CloudLayer} {x : ℚ} (hx : x ∈ comp_ceils ls) :
    ∃ ty, (ty = "broken" ∨ ty = "overcast" ∨ ty = "indefinite ceiling")
      ∧ heightsOfType ls ty ≠ [] ∧ x = listMin (heightsOfType ls ty) := by
  unfold comp_ceils at hx
  rcases List.mem_append.mp hx with hx2 | hx2
  · rcases List.mem_append.mp hx2 with hx3 | hx3
    · by_cases h1 : heightsOfType ls "broken" = []
      · rw [if_pos h1] at hx3; cases hx3
      · rw [if_neg h1, List.mem_singleton] at hx3
        exact ⟨"broken", Or.inl rfl, h1, hx3⟩
    · by_cases h2 : heightsOfType ls "overcast" = []
      · rw [if_pos h2] at hx3; cases hx3
      · rw [if_neg h2, List.mem_singleton] at hx3
        exact ⟨"overcast", Or.inr (Or.inl rfl), h2, hx3⟩
  · by_cases h3 : heightsOfType ls "indefinite ceiling" = []
    · rw [if_pos h3] at hx2; cases hx2
    · rw [if_neg h3, List.mem_singleton] at hx2
      exact ⟨"indefinite ceiling", Or.inr (Or.inr rfl), h3, hx2⟩

theorem listMin_comp_eq_listMin_governing {ls : List CloudLayer}
    (h : governingHeights ls ≠ []) :
    listMin (comp_ceils ls) = listMin (governingHeights ls) := by
  have hc : comp_ceils ls ≠ [] := fun hcc => h (governingHeights_eq_nil_iff_comp.mpr hcc)
  apply le_antisymm
  · have hg := listMin_mem _ h
    have step : ∀ ty, ty = "broken" ∨ ty = "overcast" ∨ ty = "indefinite ceiling" →
        listMin (governingHeights ls) ∈ heightsOfType ls ty →
        listMin (comp_ceils ls) ≤ listMin (governingHeights ls) := by
      intro ty hty hm
      have hne : heightsOfType ls ty ≠ [] := List.ne_nil_of_mem hm
      exact le_trans (listMin_le _ _ (listMin_heights_mem_comp hty hne)) (listMin_le _ _ hm)
    rcases governing_cases hg with hm | hm | hm
    · exact step "broken" (Or.inl rfl) hm
    · exact step "overcast" (Or.inr (Or.inl rfl)) hm
    · exact step "indefinite ceiling" (Or.inr (Or.inr rfl)) hm
  · have hcm := listMin_mem _ hc
    rcases mem_comp_ceils hcm with ⟨ty, hty, hne, heq⟩
    rw [heq]
    exact listMin_le _ _ (heightsOfType_subset_governing hty (listMin_mem _ hne))

/-- C5: for every valid ceiling measurement and numeric limit,
`bad_ceiling` returns `False` for `'clear'`, `True` for `'unavailable'`;
for a list of layers, the governing ceiling is the minimum height among
layers whose type is `broken`, `overcast` or `indefinite ceiling`, and the
function returns `True` iff such a layer exists and the limit is strictly
above that governing height; with no such layer (including an empty list
or scattered/few layers only) the result is compliant regardless of the
limit. -/
theorem bad_ceiling_spec (ls : List CloudLayer) (minimum : ℚ) :
    bad_ceiling .clear minimum = false ∧
    bad_ceiling .unavailable minimum = true ∧
    (governingHeights ls = [] → bad_ceiling (.layers ls) minimum = false) ∧
    (governingHeights ls ≠ [] →
      (bad_ceiling (.layers ls) minimum = true ↔ minimum > listMin (governingHeights ls))) := by
  refine ⟨rfl, rfl, ?_, ?_⟩
  · intro h
    simp [bad_ceiling, governingHeights_eq_nil_iff_comp.mp h]
  · intro h
    have hc : comp_ceils ls ≠ [] := fun hcc => h (governingHeights_eq_nil_iff_comp.mpr hcc)
    simp [bad_ceiling, hc, listMin_comp_eq_listMin_governing h]

/-- Witness for C5 at the docstring's example: a scattered layer at 700 ft
under an overcast layer at 1200 ft, checked against a 2000 ft minimum. -/
theorem bad_ceiling_spec_witness :
    governingHeights [⟨"scattered", 700, "FT"⟩, ⟨"overcast", 1200, "FT"⟩] ≠ [] ∧
    (bad_ceiling (.layers [⟨"scattered", 700, "FT"⟩, ⟨"overcast", 1200, "FT"⟩]) 2000 = true ↔
      (2000 : ℚ) > listMin (governingHeights
        [⟨"scattered", 700, "FT"⟩, ⟨"overcast", 1200, "FT"⟩])) := by
  have hne : governingHeights [⟨"scattered", 700, "FT"⟩, ⟨"overcast", 1200, "FT"⟩] ≠ [] := by
    simp [governingHeights]
  exact ⟨hne, (bad_ceiling_spec [⟨"scattered", 700, "FT"⟩, ⟨"overcast", 1200, "FT"⟩] 2000).2.2.2
    hne⟩

theorem foldl_maxKey_ge_init (ks : List Timestamp) (k : Timestamp) :
    k.clock ≤ (ks.foldl (fun best k2 => if best.clock < k2.clock then k2 else best) k).clock := by
  induction ks generalizing k with
  | nil => exact le_refl _
  | cons y ys ih =>
    have hstep : k.clock ≤ (if k.clock < y.clock then y else k).clock := by
      by_cases h : k.clock < y.clock
      · rw [if_pos h]; exact le_of_lt h
      · rw [if_neg h]
    exact le_trans hstep (ih _)

theorem foldl_maxKey_ge_mem (ks : List Timestamp) (k x : Timestamp) (hx : x ∈ ks) :
    x.clock ≤ (ks.foldl (fun best k2 => if best.clock < k2.clock then k2 else best) k).clock := by
  induction ks generalizing k with
  | nil => cases hx
  | cons y ys ih =>
    rcases List.mem_cons.mp hx with h | h
    · subst h
      refine le_trans ?_ (foldl_maxKey_ge_init ys _)
      change x.clock ≤ (if k.clock < x.clock then x else k).clock
      by_cases h2 : k.clock < x.clock
      · rw [if_pos h2]
      · rw [if_neg h2]; exact le_of_not_lt h2
    · exact ih _ h

theorem foldl_maxKey_mem (ks : List Timestamp) (k : Timestamp) :
    ks.foldl (fun best k2 => if best.clock < k2.clock then k2 else best) k = k
      ∨ ks.foldl (fun best k2 => if best.clock < k2.clock then k2 else best) k ∈ ks := by
  induction ks generalizing k with
  | nil => exact Or.inl rfl
  | cons y ys ih =>
    have hfc : (y :: ys).foldl (fun best k2 => if best.clock < k2.clock then k2 else best) k
        = ys.foldl (fun best k2 => if best.clock < k2.clock then k2 else best)
            (if k.clock < y.clock then y else k) := rfl
    rw [hfc]
    rcases ih (if k.clock < y.clock then y else k) with h | h
    · rw [h]
      by_cases h2 : k.clock < y.clock
      · rw [if_pos h2]
        exact Or.inr (List.mem_cons_self y ys)
      · rw [if_neg h2]
        exact Or.inl rfl
    · exact Or.inr (List.mem_cons.mpr (Or.inr h))

theorem maxKey_spec (ks : List Timestamp) (h : ks ≠ []) :
    ∃ best, maxKey ks = some best ∧ best ∈ ks ∧ ∀ x ∈ ks, x.clock ≤ best.clock := by
  cases ks with
  | nil => exact absurd rfl h
  | cons k ks =>
    refine ⟨_, rfl, ?_, ?_⟩
    · rcases foldl_maxKey_mem ks k with h1 | h1
      · rw [h1]; exact List.mem_cons_self k ks
      · exact List.mem_cons.mpr (Or.inr h1)
    · intro x hx
      rcases List.mem_cons.mp hx with h1 | h1
      · subst h1; exact foldl_maxKey_ge_init ks x
      · exact foldl_maxKey_ge_mem ks k x h1

theorem nodup_keys_inj {α : Type} : ∀ {l : List (Timestamp × α)} {x y : Timestamp × α},
    (l.map Prod.fst).Nodup → x ∈ l → y ∈ l → x.1 = y.1 → x = y := by
  intro l
  induction l with
  | nil => intro x y _ hx _ _; cases hx
  | cons z zs ih =>
    intro x y h hx hy hfst
    rw [List.map_cons, List.nodup_cons] at h
    rcases List.mem_cons.mp hx with h1 | h1 <;> rcases List.mem_cons.mp hy with h2 | h2
    · rw [h1, h2]
    · exfalso
      apply h.1
      rw [h1] at hfst
      rw [hfst]
      exact List.mem_map_of_mem Prod.fst h2
    · exfalso
      apply h.1
      rw [h2] at hfst
      rw [← hfst]
      exact List.mem_map_of_mem Prod.fst h1
    · exact ih h.2 h1 h2 hfst

/-- C7: if the log has a key equal to the takeoff instant,
`get_weather_report` returns that entry's observation (the exact-match
path wins over any fallback scan); otherwise, provided at least one entry
has the same UTC offset and a timestamp strictly before the takeoff, it
returns the observation with the greatest such timestamp, ignoring
entries with a different offset or at/after the takeoff.  The key-nodup
hypothesis holds of every Python dictionary. -/
theorem get_weather_report_spec {α : Type} (takeoff : Timestamp)
    (weather : List (Timestamp × α)) (hnd : (weather.map Prod.fst).Nodup) :
    (∀ kv, kv ∈ weather → kv.1 = takeoff →
      get_weather_report takeoff weather = Except.ok (some kv.2)) ∧
    ((∀ kv, kv ∈ weather → kv.1 ≠ takeoff) →
      ∀ k r, (k, r) ∈ weather → k.offset = takeoff.offset → takeoff.utc > k.utc →
        (∀ kv, kv ∈ weather → kv.1.offset = takeoff.offset → takeoff.utc > kv.1.utc →
          kv.1.clock ≤ k.clock) →
        get_weather_report takeoff weather = Except.ok (some r)) := by
  constructor
  · intro kv hkv hkey
    obtain ⟨a, ha⟩ : ∃ a, weather.find? (fun kv => decide (kv.1 = takeoff)) = some a := by
      cases hf : weather.find? (fun kv => decide (kv.1 = takeoff)) with
      | some a => exact ⟨a, rfl⟩
      | none =>
        have hno := List.find?_eq_none.mp hf kv hkv
        simp [hkey] at hno
    have hmem := List.mem_of_find?_eq_some ha
    have hpa : a.1 = takeoff := by
      have := List.find?_some ha
      simpa using this
    have hav : a = kv := nodup_keys_inj hnd hmem hkv (hpa.trans hkey.symm)
    unfold get_weather_report
    rw [ha, hav]
  · intro hni k r hkr hoff hbefore hmax
    have hfind : weather.find? (fun kv => decide (kv.1 = takeoff)) = none := by
      apply List.find?_eq_none.mpr
      intro kv hkv
      simp [hni kv hkv]
    have hkv_before : (k, r) ∈ weather.filter
        (fun kv => decide (takeoff.offset = kv.1.offset) && decide (takeoff.utc > kv.1.utc)) := by
      apply List.mem_filter.mpr
      refine ⟨hkr, ?_⟩
      simp [hoff.symm, hbefore]
    have hbn : (weather.filter
        (fun kv => decide (takeoff.offset = kv.1.offset)
          && decide (takeoff.utc > kv.1.utc))).map Prod.fst ≠ [] := by
      intro h0
      have hk : (k, r).1 ∈ (weather.filter
          (fun kv => decide (takeoff.offset = kv.1.offset)
            && decide (takeoff.utc > kv.1.utc))).map Prod.fst :=
        List.mem_map_of_mem Prod.fst hkv_before
      rw [h0] at hk
      cases hk
    rcases maxKey_spec _ hbn with ⟨best, hmk, hbmem, hball⟩
    rcases List.mem_map.mp hbmem with ⟨bkv, hbkv_mem, hbk⟩
    have hflt := List.mem_filter.mp hbkv_mem
    have hcond : takeoff.offset = bkv.1.offset ∧ takeoff.utc > bkv.1.utc := by
      have hc := hflt.2
      simp at hc
      exact hc
    have hbw : bkv ∈ weather := hflt.1
    have h1 : best.clock ≤ k.clock := by
      have := hmax bkv hbw hcond.1.symm hcond.2
      rw [hbk] at this
      exact this
    have h2 : k.clock ≤ best.clock :=
      hball (k, r).1 (List.mem_map_of_mem Prod.fst hkv_before)
    have hbid : best = k := by
      have hck : best.clock = k.clock := le_antisymm h1 h2
      have hok : best.offset = k.offset := by
        have hbo : takeoff.offset = best.offset := by
          rw [← hbk]; exact hcond.1
        rw [← hbo, hoff]
      cases best
      cases k
      simp_all
    obtain ⟨a, ha2⟩ : ∃ a, weather.find? (fun kv => decide (kv.1 = best)) = some a := by
      cases hf : weather.find? (fun kv => decide (kv.1 = best)) with
      | some a => exact ⟨a, rfl⟩
      | none =>
        have hno := List.find?_eq_none.mp hf (k, r) hkr
        simp [hbid] at hno
    have hamem := List.mem_of_find?_eq_some ha2
    have hpa : a.1 = best := by
      have := List.find?_some ha2
      simpa using this
    have hak : a = (k, r) := nodup_keys_inj hnd hamem hkr (hpa.trans hbid)
    unfold get_weather_report
    simp only [hfind, hmk, ha2, hak]

/-- Witness for C7: a log with the 07:00 and 08:00 same-offset entries and
a 09:00 takeoff (no exact match) resolves to the 08:00 observation. -/
theorem get_weather_report_spec_witness :
    get_weather_report (α := Nat) ⟨540, -240⟩ [(⟨420, -240⟩, 0), (⟨480, -240⟩, 1)]
      = Except.ok (some 1) :=
  (get_weather_report_spec ⟨540, -240⟩ [(⟨420, -240⟩, 0), (⟨480, -240⟩, 1)] (by decide)).2
    (by decide) ⟨480, -240⟩ 1 (by decide) rfl (by decide) (by decide)

theorem audit_foldlM (P : List String → Option String) (f : List String → String) :
    ∀ (ls acc : List (List String)),
      (∀ x ∈ ls, P x = some (f x)) →
      ls.foldlM
        (fun results line => do
          let viola ← P line
          if viola ≠ "" then pure (results ++ [line ++ [viola]]) else pure results)
        acc
      = some (acc ++ (ls.filter (fun line => decide (f line ≠ ""))).map
          (fun line => line ++ [f line])) := by
  intro ls
  induction ls with
  | nil =>
    intro acc h
    simp
  | cons x xs ih =>
    intro acc h
    have hx := h x (List.mem_cons_self x xs)
    rw [List.foldlM_cons]
    by_cases hfx : f x = ""
    · simp only [hx, Option.bind_some, hfx]
      simp only [ne_eq, not_true_eq_false, if_false, List.filter_cons, decide_not,
        decide_eq_true_eq]
      have := ih acc (fun y hy => h y (List.mem_cons.mpr (Or.inr hy)))
      simpa [hfx] using this
    · simp only [hx, Option.bind_some]
      simp only [ne_eq, hfx, not_false_eq_true, if_true, List.filter_cons]
      have := ih (acc ++ [x ++ [f x]]) (fun y hy => h y (List.mem_cons.mpr (Or.inr hy)))
      simpa [hfx, List.append_assoc] using this

/-- C8: for every list of takeoff records (with the required data tables)
and every behaviour of the external `utils`/`pilots` collaborators,
`list_weather_violations` returns exactly the records whose violation
label is not the empty string, in the original input order, and each
violating record contributes exactly one output row consisting of that
record's fields with its single label appended — a record with multiple
simultaneous violations is never split into multiple rows.  The function
`f` names the label that the per-lesson computation produces on each
record, which the hypothesis requires to succeed on valid tables. -/
theorem list_weather_violations_spec {δ : Type} (env : AuditEnv δ) (daycycle : δ)
    (weather : List (Timestamp × Weather)) (minimums students lessons : List (List String))
    (f : List String → String)
    (hf : ∀ line ∈ lessons.drop 1,
      process_lesson env daycycle weather minimums students line = some (f line)) :
    list_weather_violations env daycycle weather minimums students lessons
      = some (((lessons.drop 1).filter (fun line => decide (f line ≠ ""))).map
          (fun line => line ++ [f line])) := by
  have h := audit_foldlM (process_lesson env daycycle weather minimums students) f
    (lessons.drop 1) [] hf
  simpa [list_weather_violations] using h

/-- Witness for C8: a one-lesson table under trivial collaborators; the
lesson's observation has unavailable visibility, so the single output row
is the lesson with `Visibility` appended. -/
theorem list_weather_violations_spec_witness :
    (∀ line ∈ ([[], ["S1", "P1", "I1", "T1", "T2", "VFR", "Pattern"]] :
        List (List String)).drop 1,
      process_lesson
        (⟨fun _ => some ⟨0, 0⟩, fun _ _ => [], fun _ _ => 0, fun _ _ => true,
          fun _ _ _ _ _ _ => [0, 0, 0, 0]⟩ : AuditEnv Unit) ()
        [(⟨0, 0⟩, ⟨.unavailable, .calm, .clear⟩)] [] [] line
        = some "Visibility") ∧
    list_weather_violations
      (⟨fun _ => some ⟨0, 0⟩, fun _ _ => [], fun _ _ => 0, fun _ _ => true,
        fun _ _ _ _ _ _ => [0, 0, 0, 0]⟩ : AuditEnv Unit) ()
      [(⟨0, 0⟩, ⟨.unavailable, .calm, .clear⟩)] [] []
      [[], ["S1", "P1", "I1", "T1", "T2", "VFR", "Pattern"]]
      = some [["S1", "P1", "I1", "T1", "T2", "VFR", "Pattern", "Visibility"]] := by
  have hf : ∀ line ∈ ([[], ["S1", "P1", "I1", "T1", "T2", "VFR", "Pattern"]] :
      List (List String)).drop 1,
      process_lesson
        (⟨fun _ => some ⟨0, 0⟩, fun _ _ => [], fun _ _ => 0, fun _ _ => true,
          fun _ _ _ _ _ _ => [0, 0, 0, 0]⟩ : AuditEnv Unit) ()
        [(⟨0, 0⟩, ⟨.unavailable, .calm, .clear⟩)] [] [] line
        = some "Visibility" := by
    intro line hl
    rw [List.drop_one, List.tail_cons, List.mem_singleton] at hl
    subst hl
    rfl
  refine ⟨hf, ?_⟩
  exact list_weather_violations_spec
    (⟨fun _ => some ⟨0, 0⟩, fun _ _ => [], fun _ _ => 0, fun _ _ => true,
      fun _ _ _ _ _ _ => [0, 0, 0, 0]⟩ : AuditEnv Unit) ()
    [(⟨0, 0⟩, ⟨.unavailable, .calm, .clear⟩)] [] []
    [[], ["S1", "P1", "I1", "T1", "T2", "VFR", "Pattern"]]
    (fun _ => "Visibility") hf

end Auditor
